import Mathlib

/-!
Verification of the incremental build engine of the `asset-forge` asset
pipeline: the build cache (`src/processors/cache.rs`), the batch scheduler
(`src/commands/build.rs`) and the watch-mode debouncer
(`src/commands/watch.rs`), shallowly embedded in Lean.

Modelling conventions:
* Paths are strings; the filesystem is a partial map from paths to a pair of
  a content hash and an mtime.  `hash_file` in the source reads a file and
  applies `xxh3_64`; since every claim only ever compares hashes for
  (in)equality, the composition "read then hash" is embedded as the stored
  `hash` field of the file model.
* Rust `Result` becomes `Except String`; `anyhow` error messages are kept as
  plain strings.
* `HashMap` fields become functions into `Option` (the map quotient the code
  relies on: at most one entry per key).
* `Instant`/`Duration` become natural numbers counting milliseconds;
  `Instant::duration_since` on a monotone clock is truncated subtraction.
* The rayon `par_iter().for_each` over files with atomically updated
  counters and a mutex-guarded error list and cache is embedded as a left
  fold over the file list: every claim below is about the aggregate result,
  which is interleaving-independent because each iteration touches only its
  own file's cache key and adds to counters/lists.
-/

namespace AssetForge

/-- File paths (`PathBuf` in the source). -/
abbrev FPath := String

/-- What the filesystem knows about one existing file: the `xxh3_64` hash of
its content and its mtime in seconds since the epoch (`get_mtime`). -/
structure FileInfo where
  hash : Nat
  mtime : Nat
deriving Repr, DecidableEq

/-- A snapshot of the filesystem: `none` means the path does not exist. -/
structure FS where
  file : FPath → Option FileInfo

/-- Embeds `Path::exists()`. -/
def FS.existsb (fs : FS) (p : FPath) : Bool :=
  (fs.file p).isSome

/-- Embeds `hash_file` (cache.rs): read the file and hash its contents; an I/O
failure on a missing file becomes an error. -/
def hash_file (fs : FS) (p : FPath) : Except String Nat :=
  match fs.file p with
  | none => .error ("Failed to read file for hashing: " ++ p)
  | some fi => .ok fi.hash

/-- Embeds `std::fs::metadata` followed by `get_mtime` (cache.rs). -/
def fs_mtime (fs : FS) (p : FPath) : Except String Nat :=
  match fs.file p with
  | none => .error ("No such file or directory: " ++ p)
  | some fi => .ok fi.mtime

/-- Embeds `CacheEntry` (cache.rs). -/
structure CacheEntry where
  input_hash : Nat
  config_hash : Nat
  output_path : FPath
  mtime : Nat
  processed_at : Nat
deriving Repr, DecidableEq

/-- Embeds `BuildCache` (cache.rs): entries keyed by input path, plus the format
version. -/
structure BuildCache where
  entries : FPath → Option CacheEntry
  version : Nat

/-- Embeds `CACHE_VERSION` (cache.rs). -/
def CACHE_VERSION : Nat := 1

/-- Embeds `BuildCache::new`. -/
def BuildCache.new : BuildCache :=
  { entries := fun _ => none, version := CACHE_VERSION }

/-- The derived `Default` impl on `BuildCache`: an empty map and the numeric
default `0` for `version`. -/
def BuildCache.deflt : BuildCache :=
  { entries := fun _ => none, version := 0 }

/-- The state the cache sidecar file (`<cache_dir>/cache.json`) can be in
when `load` runs: absent, present but unreadable, readable but not valid
JSON for a `BuildCache`, or parseable to a cache value. -/
inductive SidecarState where
  | absent
  | unreadable
  | unparseable
  | parsed (c : BuildCache)

/-- Embeds `BuildCache::load` (cache.rs): `Ok(new)` when the file is absent,
propagated errors on read/parse failure, `Ok(new)` on a version mismatch,
and the parsed cache otherwise. -/
def BuildCache.load : SidecarState → Except String BuildCache
  | .absent => .ok BuildCache.new
  | .unreadable => .error "Failed to read cache file"
  | .unparseable => .error "Failed to parse cache file"
  | .parsed c => if c.version ≠ CACHE_VERSION then .ok BuildCache.new else .ok c

/-- Embeds `BuildCache::save` (cache.rs) on the success path: the sidecar file now
parses back to exactly the saved value (`serde_json` round-trips this record
shape). -/
def BuildCache.save (c : BuildCache) : SidecarState :=
  .parsed c

/-- The call site in build.rs line 117:
`BuildCache::load(&cache_dir).unwrap_or_default()`. -/
def loadOrDefault (s : SidecarState) : BuildCache :=
  (BuildCache.load s).toOption.getD BuildCache.deflt

/-- Embeds `BuildCache::needs_rebuild` (cache.rs lines 80–115), line by line:
missing entry, changed config, missing output each force a rebuild; then the
current content hash is computed and compared; only then is mtime consulted. -/
def BuildCache.needs_rebuild (c : BuildCache) (fs : FS) (input : FPath)
    (config_hash : Nat) : Except String Bool :=
  match c.entries input with
  | none => .ok true
  | some entry =>
    if entry.config_hash ≠ config_hash then .ok true
    else if ¬ fs.existsb entry.output_path then .ok true
    else
      match hash_file fs input with
      | .error e => .error e
      | .ok current_hash =>
        if current_hash ≠ entry.input_hash then .ok true
        else
          match fs_mtime fs input with
          | .error e => .error e
          | .ok mtime =>
            if mtime ≠ entry.mtime then .ok (current_hash ≠ entry.input_hash)
            else .ok false

/-- Embeds `BuildCache::update` (cache.rs lines 118–144): hash the input, read its
mtime, and replace the entry wholesale; `now` is the wall-clock timestamp the
source takes from `SystemTime::now`. -/
def BuildCache.update (c : BuildCache) (fs : FS) (now : Nat)
    (input output : FPath) (config_hash : Nat) : Except String BuildCache :=
  match hash_file fs input with
  | .error e => .error e
  | .ok input_hash =>
    match fs_mtime fs input with
    | .error e => .error e
    | .ok mtime =>
      .ok { c with entries := fun p =>
              if p = input then
                some { input_hash := input_hash, config_hash := config_hash,
                       output_path := output, mtime := mtime,
                       processed_at := now }
              else c.entries p }

/-- Embeds `BuildCache::cleanup` (cache.rs lines 147–149): retain entries whose
input path still exists. -/
def BuildCache.cleanup (c : BuildCache) (fs : FS) : BuildCache :=
  { c with entries := fun p => if fs.existsb p then c.entries p else none }

/-! ### The batch scheduler (build.rs `run`) -/

/-- The per-session statistics build.rs accumulates in atomics
(`processed_count`, `skipped_count`, `error_count`, `total_original`,
`total_output`) and the mutex-guarded `errors_list`. -/
structure BuildStats where
  processed : Nat
  skipped : Nat
  errored : Nat
  errors : List (FPath × String)
  totalOriginal : Nat
  totalOutput : Nat
deriving Repr, DecidableEq

/-- Fresh statistics at the start of `run`. -/
def BuildStats.init : BuildStats :=
  { processed := 0, skipped := 0, errored := 0, errors := [],
    totalOriginal := 0, totalOutput := 0 }

/-- The shared state of one batch build: the statistics and the cache. -/
structure BuildState where
  stats : BuildStats
  cache : BuildCache

/-- The outcome of `process_file` for one input, abstracted as in the spec's
transform collaborator: `Ok(Some((bytes_in, bytes_out)))`, `Ok(None)` (an
unsupported type slipped through), or `Err(message)`. -/
abbrev Transform := FPath → Except String (Option (Nat × Nat))

/-- The body of the `par_iter().for_each` closure in build.rs lines 126–164
for one file: consult the cache unless `force`, treating a `needs_rebuild`
error as `true` (`unwrap_or(true)`); on a skip bump `skipped`; otherwise run
the transform and on success add byte totals, bump `processed` and update the
cache (an `update` error is discarded: `let _ = ...`), and on failure append
to the error list and bump `errored`. -/
def buildStep (fs : FS) (tr : Transform) (outputOf : FPath → FPath)
    (config_hash : Nat) (force : Bool) (now : Nat)
    (st : BuildState) (file : FPath) : BuildState :=
  let needs := force ||
    ((st.cache.needs_rebuild fs file config_hash).toOption.getD true)
  if ¬ needs then
    { st with stats := { st.stats with skipped := st.stats.skipped + 1 } }
  else
    match tr file with
    | .ok (some (orig, outb)) =>
      let cache' :=
        match st.cache.update fs now file (outputOf file) config_hash with
        | .ok c => c
        | .error _ => st.cache
      { stats := { st.stats with
          processed := st.stats.processed + 1,
          totalOriginal := st.stats.totalOriginal + orig,
          totalOutput := st.stats.totalOutput + outb },
        cache := cache' }
    | .ok none => st
    | .error e =>
      { st with stats := { st.stats with
          errored := st.stats.errored + 1,
          errors := st.stats.errors ++ [(file, e)] } }

/-- The whole parallel loop of build.rs over the candidate files, as a fold
(see the file comment for why the fold is a faithful account of the
aggregate). -/
def runBatch (fs : FS) (tr : Transform) (outputOf : FPath → FPath)
    (config_hash : Nat) (force : Bool) (now : Nat)
    (cacheIn : BuildCache) (files : List FPath) : BuildState :=
  files.foldl (buildStep fs tr outputOf config_hash force now)
    { stats := BuildStats.init, cache := cacheIn }

/-- build.rs lines 170–174 after the loop: `cleanup` the cache, then `save`
it to the sidecar. -/
def sessionSidecar (fs : FS) (st : BuildState) : SidecarState :=
  (st.cache.cleanup fs).save

/-! ### The debouncer (watch.rs) -/

/-- Embeds `Debouncer` (watch.rs lines 53–56): last-event instant per path (in
milliseconds) and the debounce window (`Duration::from_millis`). -/
structure Debouncer where
  last_events : FPath → Option Nat
  debounce_duration : Nat

/-- Embeds `Debouncer::new(debounce_ms)`. -/
def Debouncer.new (debounce_ms : Nat) : Debouncer :=
  { last_events := fun _ => none, debounce_duration := debounce_ms }

/-- Embeds `Debouncer::should_process` (watch.rs lines 66–78): return `false` when a
recorded instant exists and less than the window has elapsed; otherwise
record `now` for the path and return `true`. -/
def Debouncer.should_process (d : Debouncer) (now : Nat) (path : FPath) :
    Bool × Debouncer :=
  match d.last_events path with
  | some last =>
    if now - last < d.debounce_duration then (false, d)
    else
      (true, { d with last_events := fun p =>
                 if p = path then some now else d.last_events p })
  | none =>
    (true, { d with last_events := fun p =>
               if p = path then some now else d.last_events p })

/-- Embeds `Duration::from_secs(60)` in `Debouncer::cleanup`, in milliseconds. -/
def retention_horizon_ms : Nat := 60000

/-- Embeds `Debouncer::cleanup` (watch.rs lines 80–86): retain entries strictly
younger than the 60-second horizon. -/
def Debouncer.cleanup (d : Debouncer) (now : Nat) : Debouncer :=
  { d with last_events := fun p =>
      match d.last_events p with
      | some t => if now - t < retention_horizon_ms then some t else none
      | none => none }

/-! ### Concrete sample values used by witnesses and counterexamples -/

/-- The record of the source's `test_cache_roundtrip` test. -/
def sampleEntry : CacheEntry :=
  { input_hash := 12345, config_hash := 67890,
    output_path := "output/test.png", mtime := 1000, processed_at := 2000 }

/-- A one-record cache built from `BuildCache::new`. -/
def sampleNewCache : BuildCache :=
  { BuildCache.new with entries := fun p =>
      if p = "test.png" then some sampleEntry else none }

/-- The same record added to a default-constructed cache (version 0). -/
def sampleDefaultCache : BuildCache :=
  { BuildCache.deflt with entries := fun p =>
      if p = "test.png" then some sampleEntry else none }

/-! ### Theorems about the cache sidecar lifecycle -/

/-- C2, counterexample: `BuildCache::load` does NOT degrade an unreadable
sidecar file to an empty cache — it propagates the read error (`?` on
`read_to_string`); only the call site's `unwrap_or_default` rescues it. -/
theorem load_unreadable_errors_counterexample :
    (BuildCache.load SidecarState.unreadable).isOk = false ∧
    (BuildCache.load SidecarState.unparseable).isOk = false := by
  constructor <;> rfl

/-- C2 (amended): `load` returns an empty cache when the sidecar file is
absent or carries a mismatched version, and returns the stored cache exactly
when the file is present, parseable and version-matching; on an unreadable or
unparseable file `load` itself returns an error, and it is the call site's
`unwrap_or_default` that degrades that error to an empty (default) cache, so
the caller never fails. -/
theorem load_degradation_spec :
    BuildCache.load SidecarState.absent = .ok BuildCache.new ∧
    (∀ c : BuildCache, c.version ≠ CACHE_VERSION →
      BuildCache.load (SidecarState.parsed c) = .ok BuildCache.new) ∧
    (∀ c : BuildCache, c.version = CACHE_VERSION →
      BuildCache.load (SidecarState.parsed c) = .ok c) ∧
    (BuildCache.load SidecarState.unreadable).isOk = false ∧
    (BuildCache.load SidecarState.unparseable).isOk = false ∧
    (∀ p, BuildCache.new.entries p = none) ∧
    (∀ p, (loadOrDefault SidecarState.unreadable).entries p = none) ∧
    (∀ p, (loadOrDefault SidecarState.unparseable).entries p = none) := by
  refine ⟨rfl, fun c hc => ?_, fun c hc => ?_, rfl, rfl,
    fun _ => rfl, fun _ => rfl, fun _ => rfl⟩
  · simp [BuildCache.load, hc]
  · simp [BuildCache.load, hc]

/-- C2 witness: concrete instantiation of the version-mismatch and
version-match branches of `load_degradation_spec`. -/
theorem load_degradation_spec_witness :
    BuildCache.load (SidecarState.parsed BuildCache.deflt) =
      .ok BuildCache.new ∧
    BuildCache.load (SidecarState.parsed BuildCache.new) =
      .ok BuildCache.new :=
  ⟨load_degradation_spec.2.1 BuildCache.deflt (by decide),
   load_degradation_spec.2.2.1 BuildCache.new rfl⟩

/-- C5: `save` followed by `load` reproduces an identical record set for any
cache whose version is the current one (in particular any cache built from
`BuildCache::new`, whose version is `CACHE_VERSION`); a cache persisted with
any other version loads as the empty cache. -/
theorem cache_save_load_roundtrip :
    (∀ c : BuildCache, c.version = CACHE_VERSION →
      BuildCache.load c.save = .ok c) ∧
    BuildCache.new.version = CACHE_VERSION ∧
    (∀ c : BuildCache, c.version ≠ CACHE_VERSION →
      BuildCache.load c.save = .ok BuildCache.new ∧
      ∀ p, BuildCache.new.entries p = none) := by
  refine ⟨fun c hc => ?_, rfl, fun c hc => ⟨?_, fun _ => rfl⟩⟩
  · simp [BuildCache.save, BuildCache.load, hc]
  · simp [BuildCache.save, BuildCache.load, hc]

/-- C5 witness: round-trip of a concrete one-record cache built from
`BuildCache::new` (the `test_cache_roundtrip` scenario), and discard of the
same records persisted under version `CACHE_VERSION + 1`. -/
theorem cache_save_load_roundtrip_witness :
    BuildCache.load sampleNewCache.save = .ok sampleNewCache ∧
    BuildCache.load
      (BuildCache.save { entries := fun _ => none,
                         version := CACHE_VERSION + 1 }) =
      .ok BuildCache.new :=
  ⟨cache_save_load_roundtrip.1 _ rfl,
   (cache_save_load_roundtrip.2.2 _ (by decide)).1⟩

/-- C9: the derived-`Default` cache (substituted by the scheduler when `load`
fails) has version `0 ≠ CACHE_VERSION`; `update` never changes the version,
so any records added to such a cache are discarded by the next `load` of its
`save`, whereas a version-`CACHE_VERSION` cache (from `BuildCache::new`)
survives a save/load round trip intact. -/
theorem default_cache_version_discard :
    BuildCache.deflt.version = 0 ∧
    CACHE_VERSION = 1 ∧
    loadOrDefault SidecarState.unreadable = BuildCache.deflt ∧
    (∀ (c : BuildCache) (fs : FS) (now : Nat) (i o : FPath)
       (ch : Nat) (c' : BuildCache),
       c.update fs now i o ch = .ok c' → c'.version = c.version) ∧
    (∀ c : BuildCache, c.version = BuildCache.deflt.version →
      BuildCache.load c.save = .ok BuildCache.new ∧
      ∀ p, BuildCache.new.entries p = none) ∧
    (∀ c : BuildCache, c.version = BuildCache.new.version →
      BuildCache.load c.save = .ok c) := by
  refine ⟨rfl, rfl, rfl, ?_, fun c hc => ⟨?_, fun _ => rfl⟩, fun c hc => ?_⟩
  · intro c fs now i o ch c' h
    unfold BuildCache.update at h
    cases hh : hash_file fs i <;> rw [hh] at h
    · exact absurd h (by simp)
    cases hm : fs_mtime fs i <;> rw [hm] at h
    · exact absurd h (by simp)
    · cases h
      rfl
  · have : c.version ≠ CACHE_VERSION := by
      rw [hc]
      decide
    simp [BuildCache.save, BuildCache.load, this]
  · have : c.version = CACHE_VERSION := hc
    simp [BuildCache.save, BuildCache.load, this]

/-- C9 witness: a concrete default-constructed cache with one record added
loses it across save/load, while the same record added to a
`BuildCache::new` cache survives. -/
theorem default_cache_version_discard_witness :
    BuildCache.load sampleDefaultCache.save = .ok BuildCache.new ∧
    BuildCache.load sampleNewCache.save = .ok sampleNewCache :=
  ⟨(default_cache_version_discard.2.2.2.2.1 _ rfl).1,
   default_cache_version_discard.2.2.2.2.2 _ rfl⟩

/-! ### Theorems about `needs_rebuild` -/

/-- An input file whose content hash changed (stored 1, current 2) while its
mtime still equals the stored one. -/
def entryC1 : CacheEntry :=
  { input_hash := 1, config_hash := 7, output_path := "o",
    mtime := 100, processed_at := 0 }

/-- Filesystem for the scenario: input `"a"` has hash 2 and mtime 100, the
recorded output `"o"` exists. -/
def fsC1 : FS :=
  { file := fun p =>
      if p = "a" then some { hash := 2, mtime := 100 }
      else if p = "o" then some { hash := 9, mtime := 100 }
      else none }

/-- Cache holding `entryC1` for input `"a"`. -/
def cacheC1 : BuildCache :=
  { BuildCache.new with entries := fun p =>
      if p = "a" then some entryC1 else none }

/-- C1, counterexample: a record exists, its config hash matches, the output
exists, and the recorded mtime equals the file's current mtime — so clause
(d) of the claim does not apply and the claim predicts `false` — yet
`needs_rebuild` returns `true`, because the code compares the content hash
before ever consulting the mtime. -/
theorem needs_rebuild_mtime_clause_counterexample :
    cacheC1.needs_rebuild fsC1 "a" 7 = .ok true ∧
    cacheC1.entries "a" = some entryC1 ∧
    entryC1.config_hash = 7 ∧
    fsC1.existsb entryC1.output_path = true ∧
    fs_mtime fsC1 "a" = .ok entryC1.mtime ∧
    hash_file fsC1 "a" = .ok 2 ∧
    entryC1.input_hash = 1 :=
  ⟨rfl, rfl, rfl, rfl, rfl, rfl, rfl⟩

/-- C1 (amended): for an input present on disk, `needs_rebuild` returns true
iff (a) no record exists, or (b) the record's config hash differs, or (c) the
recorded output no longer exists, or (d) the recomputed content hash differs
from the stored `input_hash` — regardless of mtime; in all other cases it
returns false.  (The source computes the content hash before the mtime
check, so the mtime comparison never affects the result.) -/
theorem needs_rebuild_characterization (c : BuildCache) (fs : FS)
    (input : FPath) (ch : Nat) (fi : FileInfo)
    (h : fs.file input = some fi) :
    (c.needs_rebuild fs input ch = .ok true ↔
      (c.entries input = none ∨ ∃ e, c.entries input = some e ∧
        (e.config_hash ≠ ch ∨ fs.existsb e.output_path = false ∨
         fi.hash ≠ e.input_hash))) ∧
    (c.needs_rebuild fs input ch = .ok false ↔
      (∃ e, c.entries input = some e ∧ e.config_hash = ch ∧
        fs.existsb e.output_path = true ∧ fi.hash = e.input_hash)) := by
  have hh : hash_file fs input = .ok fi.hash := by simp [hash_file, h]
  have hm : fs_mtime fs input = .ok fi.mtime := by simp [fs_mtime, h]
  rcases he : c.entries input with _ | e
  · constructor <;> simp [BuildCache.needs_rebuild, he]
  · simp only [BuildCache.needs_rebuild, he, hh, hm]
    split_ifs with h1 h2 h3 h4 <;>
      constructor <;>
      simp_all [Bool.not_eq_true]

/-- C1 witness: the characterization applied to the concrete scenario above
(content hash differs, mtime matches ⇒ rebuild), and to a cache with no
record. -/
theorem needs_rebuild_characterization_witness :
    cacheC1.needs_rebuild fsC1 "a" 7 = .ok true ∧
    BuildCache.new.needs_rebuild fsC1 "a" 7 = .ok true :=
  ⟨(needs_rebuild_characterization cacheC1 fsC1 "a" 7
      { hash := 2, mtime := 100 } rfl).1.mpr
      (Or.inr ⟨entryC1, rfl, Or.inr (Or.inr (by decide))⟩),
   (needs_rebuild_characterization BuildCache.new fsC1 "a" 7
      { hash := 2, mtime := 100 } rfl).1.mpr (Or.inl rfl)⟩

/-- C3: when a record exists with matching config hash and existing output,
a content-hash mismatch forces `needs_rebuild = true` even when the file's
current mtime equals the stored `mtime` — the content hash takes precedence
and a matching mtime never causes a skip of actually-changed content. -/
theorem needs_rebuild_content_precedence (c : BuildCache) (fs : FS)
    (input : FPath) (ch : Nat) (e : CacheEntry) (fi : FileInfo)
    (he : c.entries input = some e) (hcfg : e.config_hash = ch)
    (hout : fs.existsb e.output_path = true)
    (hf : fs.file input = some fi)
    (hhash : fi.hash ≠ e.input_hash) (hmtime : fi.mtime = e.mtime) :
    c.needs_rebuild fs input ch = .ok true := by
  simp [BuildCache.needs_rebuild, he, hcfg, hout, hash_file, hf, hhash]

/-- C3 witness: the concrete changed-content, same-mtime scenario. -/
theorem needs_rebuild_content_precedence_witness :
    cacheC1.needs_rebuild fsC1 "a" 7 = .ok true ∧
    fs_mtime fsC1 "a" = .ok entryC1.mtime :=
  ⟨needs_rebuild_content_precedence cacheC1 fsC1 "a" 7 entryC1
      { hash := 2, mtime := 100 } rfl rfl rfl rfl (by decide) rfl,
   rfl⟩

/-! ### Theorems about the debouncer -/

/-- A debouncer with a 5 ms window that last acted on `"a"` at instant 0. -/
def debC7 : Debouncer :=
  { last_events := fun p => if p = "a" then some 0 else none,
    debounce_duration := 5 }

/-- C7, counterexample: at elapsed time exactly equal to the window (5 ms
window, prior timestamp 0, call at instant 5), a prior timestamp exists and
the elapsed time does not *exceed* the window, so the claim predicts
`false` — yet `should_process` returns `true`, because the code ignores the
event only when strictly less than the window has elapsed. -/
theorem should_process_window_boundary_counterexample :
    (debC7.should_process 5 "a").1 = true ∧
    debC7.last_events "a" = some 0 ∧
    ¬ 5 - 0 > debC7.debounce_duration :=
  ⟨rfl, rfl, by decide⟩

/-- C7 (amended): `should_process` returns true and records `now` as the
path's new timestamp exactly when no prior timestamp exists or the elapsed
time since the prior timestamp is at least (not strictly greater than) the
debounce window; otherwise it returns false and leaves the debouncer
unchanged.  Consequently two calls for the same path within the window
return `(true, false)` and a third call once the window has elapsed returns
`true`. -/
theorem should_process_spec (d : Debouncer) (now : Nat) (p : FPath) :
    ((d.should_process now p).1 = true ↔
      (d.last_events p = none ∨ ∃ last, d.last_events p = some last ∧
        d.debounce_duration ≤ now - last)) ∧
    ((d.should_process now p).1 = true →
      ((d.should_process now p).2.last_events p = some now ∧
       ∀ q, q ≠ p → (d.should_process now p).2.last_events q =
         d.last_events q)) ∧
    ((d.should_process now p).1 = false → (d.should_process now p).2 = d) ∧
    (∀ t1 t2 t3 : Nat, d.last_events p = none →
      t2 - t1 < d.debounce_duration → d.debounce_duration ≤ t3 - t1 →
      ((d.should_process t1 p).1 = true ∧
       ((d.should_process t1 p).2.should_process t2 p).1 = false ∧
       ((d.should_process t1 p).2.should_process t3 p).1 = true)) := by
  refine ⟨?_, ?_, ?_, ?_⟩
  · rcases hl : d.last_events p with _ | last
    · simp [Debouncer.should_process, hl]
    · by_cases hlt : now - last < d.debounce_duration
      · simp [Debouncer.should_process, hl, hlt]
      · simp [Debouncer.should_process, hl, hlt]
        omega
  · intro ht
    rcases hl : d.last_events p with _ | last
    · refine ⟨by simp [Debouncer.should_process, hl], fun q hq => ?_⟩
      simp [Debouncer.should_process, hl, hq]
    · by_cases hlt : now - last < d.debounce_duration
      · exact absurd ht (by simp [Debouncer.should_process, hl, hlt])
      · refine ⟨by simp [Debouncer.should_process, hl, hlt], fun q hq => ?_⟩
        simp [Debouncer.should_process, hl, hlt, hq]
  · intro hf
    rcases hl : d.last_events p with _ | last
    · exact absurd hf (by simp [Debouncer.should_process, hl])
    · by_cases hlt : now - last < d.debounce_duration
      · simp [Debouncer.should_process, hl, hlt]
      · exact absurd hf (by simp [Debouncer.should_process, hl, hlt])
  · intro t1 t2 t3 h0 h12 h13
    have hx : ¬ t3 - t1 < d.debounce_duration := by omega
    exact ⟨by simp [Debouncer.should_process, h0],
      by simp [Debouncer.should_process, h0, h12],
      by simp [Debouncer.should_process, h0, hx]⟩

/-- C7 witness: with a fresh 5 ms debouncer on path `"a"`, calls at instants
0, 3 and 5 return `true`, `false`, `true`. -/
theorem should_process_spec_witness :
    ((Debouncer.new 5).should_process 0 "a").1 = true ∧
    (((Debouncer.new 5).should_process 0 "a").2.should_process 3 "a").1 =
      false ∧
    (((Debouncer.new 5).should_process 0 "a").2.should_process 5 "a").1 =
      true :=
  (should_process_spec (Debouncer.new 5) 0 "a").2.2.2 0 3 5 rfl
    (by decide) (by decide)

/-- A debouncer with a 100 ms window and one entry recorded at instant 0. -/
def debC8 : Debouncer :=
  { last_events := fun p => if p = "a" then some 0 else none,
    debounce_duration := 100 }

/-- C8, counterexample: the retention horizon is the fixed constant 60000 ms
while the debounce window is an arbitrary constructor argument, so for a
`Debouncer::new(60000)` the horizon is NOT strictly longer than the window;
moreover `cleanup` removes an entry whose age exactly equals the horizon,
which the claim's strict "older than" reading would retain. -/
theorem cleanup_horizon_counterexample :
    (Debouncer.new 60000).debounce_duration = 60000 ∧
    ¬ (Debouncer.new 60000).debounce_duration < retention_horizon_ms ∧
    debC8.last_events "a" = some 0 ∧
    (debC8.cleanup retention_horizon_ms).last_events "a" = none :=
  ⟨rfl, by decide, rfl, rfl⟩

/-- C8 (amended): `cleanup` removes exactly those entries whose age
(`now - last`) is at least the fixed 60000 ms retention horizon; the horizon
is a constant independent of the debounce window, and it is strictly longer
than the window exactly for the windows shorter than 60000 ms (for a window
of 60000 ms or more it is not). -/
theorem cleanup_spec :
    (∀ (d : Debouncer) (now : Nat) (p : FPath),
      (d.cleanup now).last_events p =
        match d.last_events p with
        | some t => if now - t < retention_horizon_ms then some t else none
        | none => none) ∧
    retention_horizon_ms = 60000 ∧
    (∀ w : Nat, (Debouncer.new w).debounce_duration = w) ∧
    (∀ (d : Debouncer) (now : Nat), (d.cleanup now).debounce_duration =
      d.debounce_duration) ∧
    (∀ w : Nat, w < 60000 →
      (Debouncer.new w).debounce_duration < retention_horizon_ms) := by
  refine ⟨fun d now p => rfl, rfl, fun w => rfl, fun d now => rfl,
    fun w hw => ?_⟩
  simpa [Debouncer.new, retention_horizon_ms] using hw

/-- C8 witness: a 100 ms-window debouncer keeps a 59999 ms-old entry and
drops a 60000 ms-old one, and its 100 ms window is below the horizon. -/
theorem cleanup_spec_witness :
    (debC8.cleanup 59999).last_events "a" = some 0 ∧
    (debC8.cleanup 60000).last_events "a" = none ∧
    (Debouncer.new 100).debounce_duration < retention_horizon_ms := by
  refine ⟨?_, ?_, cleanup_spec.2.2.2.2 100 (by decide)⟩
  · rw [cleanup_spec.1 debC8 59999 "a"]
    rfl
  · rw [cleanup_spec.1 debC8 60000 "a"]
    rfl

/-! ### Theorems about the batch scheduler -/

/-- Does a transform result successfully report byte sizes
(`Ok(Some((orig, out)))`)? -/
def isOkSomeB : Except String (Option (Nat × Nat)) → Bool
  | .ok (some _) => true
  | _ => false

/-- Is a transform result a failure? -/
def isErrB : Except String (Option (Nat × Nat)) → Bool
  | .error _ => true
  | _ => false

/-- The error-list contribution of one file: `(path, message)` on failure. -/
def errPair (tr : Transform) (f : FPath) : Option (FPath × String) :=
  match tr f with
  | .error e => some (f, e)
  | _ => none

theorem isOkSomeB_iff (r : Except String (Option (Nat × Nat))) :
    isOkSomeB r = true ↔ ∃ a b, r = .ok (some (a, b)) := by
  rcases r with e | v
  · simp [isOkSomeB]
  · rcases v with _ | ⟨a, b⟩
    · simp [isOkSomeB]
    · simp [isOkSomeB]

theorem buildStep_errored_inv (fs : FS) (tr : Transform)
    (outputOf : FPath → FPath) (ch : Nat) (force : Bool) (now : Nat)
    (st : BuildState) (f : FPath)
    (h : st.stats.errored = st.stats.errors.length) :
    (buildStep fs tr outputOf ch force now st f).stats.errored =
      (buildStep fs tr outputOf ch force now st f).stats.errors.length := by
  unfold buildStep
  cases hn : (force ||
      ((st.cache.needs_rebuild fs f ch).toOption.getD true)) with
  | false => simp [hn, h]
  | true =>
    rcases htr : tr f with e | v
    · simp [hn, htr, h, List.length_append]
    · rcases v with _ | ⟨a, b⟩
      · simpa [hn, htr] using h
      · simp [hn, htr, h]

theorem foldl_errored_inv (fs : FS) (tr : Transform)
    (outputOf : FPath → FPath) (ch : Nat) (force : Bool) (now : Nat)
    (files : List FPath) :
    ∀ st : BuildState, st.stats.errored = st.stats.errors.length →
      (files.foldl (buildStep fs tr outputOf ch force now) st).stats.errored =
        (files.foldl (buildStep fs tr outputOf ch force now)
          st).stats.errors.length := by
  induction files with
  | nil => exact fun st h => h
  | cons f rest ih =>
    exact fun st h =>
      ih _ (buildStep_errored_inv fs tr outputOf ch force now st f h)

/-- C10: at the end of every batch build the error counter equals the length
of the collected error list — each failing transform appends exactly one
`(path, message)` pair and increments the counter exactly once, and no other
branch of the worker body touches either. -/
theorem errored_equals_error_list_length (fs : FS) (tr : Transform)
    (outputOf : FPath → FPath) (ch : Nat) (force : Bool) (now : Nat)
    (cacheIn : BuildCache) (files : List FPath) :
    (runBatch fs tr outputOf ch force now cacheIn files).stats.errored =
      (runBatch fs tr outputOf ch force now cacheIn
        files).stats.errors.length :=
  foldl_errored_inv fs tr outputOf ch force now files
    { stats := BuildStats.init, cache := cacheIn } rfl

theorem foldl_force_stats (fs : FS) (tr : Transform)
    (outputOf : FPath → FPath) (ch : Nat) (now : Nat) (files : List FPath) :
    ∀ st : BuildState,
      ((files.foldl (buildStep fs tr outputOf ch true now)
          st).stats.processed =
        st.stats.processed + files.countP (fun f => isOkSomeB (tr f))) ∧
      ((files.foldl (buildStep fs tr outputOf ch true now) st).stats.errored =
        st.stats.errored + files.countP (fun f => isErrB (tr f))) ∧
      ((files.foldl (buildStep fs tr outputOf ch true now) st).stats.errors =
        st.stats.errors ++ files.filterMap (errPair tr)) := by
  induction files with
  | nil => intro st; simp
  | cons f rest ih =>
    intro st
    have hfold : (f :: rest).foldl (buildStep fs tr outputOf ch true now) st =
        rest.foldl (buildStep fs tr outputOf ch true now)
          (buildStep fs tr outputOf ch true now st f) := rfl
    rcases htr : tr f with e | v
    · have hstep : buildStep fs tr outputOf ch true now st f =
          { st with stats := { st.stats with
              errored := st.stats.errored + 1,
              errors := st.stats.errors ++ [(f, e)] } } := by
        simp [buildStep, htr]
      rcases ih (buildStep fs tr outputOf ch true now st f) with
        ⟨ih1, ih2, ih3⟩
      rw [hfold]
      refine ⟨?_, ?_, ?_⟩
      · rw [ih1, hstep]
        simp [List.countP_cons, isOkSomeB, htr]
      · rw [ih2, hstep]
        simp [List.countP_cons, isErrB, htr]
        omega
      · rw [ih3, hstep]
        simp [errPair, htr]
    · rcases v with _ | ⟨a, b⟩
      · have hstep : buildStep fs tr outputOf ch true now st f = st := by
          simp [buildStep, htr]
        rcases ih st with ⟨ih1, ih2, ih3⟩
        rw [hfold, hstep]
        refine ⟨?_, ?_, ?_⟩
        · rw [ih1]
          simp [List.countP_cons, isOkSomeB, htr]
        · rw [ih2]
          simp [List.countP_cons, isErrB, htr]
        · rw [ih3]
          simp [errPair, htr]
      · have hstep : ∃ c' : BuildCache,
            buildStep fs tr outputOf ch true now st f =
            { stats := { st.stats with
                processed := st.stats.processed + 1,
                totalOriginal := st.stats.totalOriginal + a,
                totalOutput := st.stats.totalOutput + b },
              cache := c' } := by
          refine ⟨?_, ?_⟩
          · exact match st.cache.update fs now f (outputOf f) ch with
              | .ok c => c
              | .error _ => st.cache
          · simp [buildStep, htr]
        rcases hstep with ⟨c', hstep⟩
        rcases ih (buildStep fs tr outputOf ch true now st f) with
          ⟨ih1, ih2, ih3⟩
        rw [hfold]
        refine ⟨?_, ?_, ?_⟩
        · rw [ih1, hstep]
          simp [List.countP_cons, isOkSomeB, htr]
          omega
        · rw [ih2, hstep]
          simp [List.countP_cons, isErrB, htr]
        · rw [ih3, hstep]
          simp [errPair, htr]

/-- C4: in a batch over `pre ++ bad :: post` where exactly the transform of
`bad` fails (with message `msg`) and nothing is skipped from cache (the
`force` flag short-circuits the cache check, exactly as `--force` does),
the final statistics count `processed = N − 1` and `errored = 1`, and the
error list is exactly `[(bad, msg)]`: one failure never aborts the rest of
the batch. -/
theorem batch_single_failure_stats (fs : FS) (tr : Transform)
    (outputOf : FPath → FPath) (ch : Nat) (now : Nat)
    (cacheIn : BuildCache) (pre post : List FPath) (bad : FPath)
    (msg : String)
    (hpre : ∀ f ∈ pre, isOkSomeB (tr f) = true)
    (hpost : ∀ f ∈ post, isOkSomeB (tr f) = true)
    (hbad : tr bad = .error msg) :
    ((runBatch fs tr outputOf ch true now cacheIn
        (pre ++ bad :: post)).stats.processed =
      (pre ++ bad :: post).length - 1) ∧
    ((runBatch fs tr outputOf ch true now cacheIn
        (pre ++ bad :: post)).stats.errored = 1) ∧
    ((runBatch fs tr outputOf ch true now cacheIn
        (pre ++ bad :: post)).stats.errors = [(bad, msg)]) := by
  have hmain := foldl_force_stats fs tr outputOf ch now (pre ++ bad :: post)
    { stats := BuildStats.init, cache := cacheIn }
  rcases hmain with ⟨h1, h2, h3⟩
  have hcp : (pre ++ bad :: post).countP (fun f => isOkSomeB (tr f)) =
      pre.length + post.length := by
    have hc1 : pre.countP (fun f => isOkSomeB (tr f)) = pre.length :=
      List.countP_eq_length.mpr (by simpa using hpre)
    have hc2 : post.countP (fun f => isOkSomeB (tr f)) = post.length :=
      List.countP_eq_length.mpr (by simpa using hpost)
    have hb : isOkSomeB (tr bad) = false := by simp [isOkSomeB, hbad]
    rw [List.countP_append, List.countP_cons, hc1, hc2]
    simp [hb]
  have hce : (pre ++ bad :: post).countP (fun f => isErrB (tr f)) = 1 := by
    have hc1 : pre.countP (fun f => isErrB (tr f)) = 0 := by
      rw [List.countP_eq_zero]
      intro f hf
      rcases (isOkSomeB_iff (tr f)).mp (hpre f hf) with ⟨a, b, hab⟩
      simp [isErrB, hab]
    have hc2 : post.countP (fun f => isErrB (tr f)) = 0 := by
      rw [List.countP_eq_zero]
      intro f hf
      rcases (isOkSomeB_iff (tr f)).mp (hpost f hf) with ⟨a, b, hab⟩
      simp [isErrB, hab]
    have hb : isErrB (tr bad) = true := by simp [isErrB, hbad]
    rw [List.countP_append, List.countP_cons, hc1, hc2]
    simp [hb]
  have hfm : (pre ++ bad :: post).filterMap (errPair tr) = [(bad, msg)] := by
    have hc1 : pre.filterMap (errPair tr) = [] := by
      rw [List.filterMap_eq_nil_iff]
      intro f hf
      rcases (isOkSomeB_iff (tr f)).mp (hpre f hf) with ⟨a, b, hab⟩
      simp [errPair, hab]
    have hc2 : post.filterMap (errPair tr) = [] := by
      rw [List.filterMap_eq_nil_iff]
      intro f hf
      rcases (isOkSomeB_iff (tr f)).mp (hpost f hf) with ⟨a, b, hab⟩
      simp [errPair, hab]
    have hb : errPair tr bad = some (bad, msg) := by simp [errPair, hbad]
    rw [List.filterMap_append, List.filterMap_cons, hc1, hc2, hb]
    simp
  have hlen : (pre ++ bad :: post).length = pre.length + post.length + 1 := by
    simp [List.length_append]
    omega
  refine ⟨?_, ?_, ?_⟩
  · unfold runBatch
    rw [h1, hcp, hlen]
    simp [BuildStats.init]
  · unfold runBatch
    rw [h2, hce]
    simp [BuildStats.init]
  · unfold runBatch
    rw [h3, hfm]
    simp [BuildStats.init]

/-- Transform used by the scheduler witnesses: fails on `"bad.png"`, succeeds
with sizes `(10, 5)` elsewhere. -/
def trC4 : Transform := fun f =>
  if f = "bad.png" then .error "boom" else .ok (some (10, 5))

/-- C4 witness: three files of which the middle one fails: `processed = 2`,
`errored = 1`, error list `[("bad.png", "boom")]`. -/
theorem batch_single_failure_stats_witness :
    ((runBatch fsC1 trC4 (fun p => "o" ++ p) 7 true 0 BuildCache.new
        ["a.png", "bad.png", "c.png"]).stats.processed = 2) ∧
    ((runBatch fsC1 trC4 (fun p => "o" ++ p) 7 true 0 BuildCache.new
        ["a.png", "bad.png", "c.png"]).stats.errored = 1) ∧
    ((runBatch fsC1 trC4 (fun p => "o" ++ p) 7 true 0 BuildCache.new
        ["a.png", "bad.png", "c.png"]).stats.errors =
      [("bad.png", "boom")]) :=
  batch_single_failure_stats fsC1 trC4 (fun p => "o" ++ p) 7 0
    BuildCache.new ["a.png"] ["c.png"] "bad.png" "boom"
    (by decide) (by decide) rfl

/-! ### Helper lemmas for idempotence (C6) -/

/-- The entry `update` writes: current hash and mtime of the input, the
supplied config hash and output path, and the wall-clock timestamp. -/
def updatedEntry (fi : FileInfo) (ch : Nat) (output : FPath)
    (now : Nat) : CacheEntry :=
  { input_hash := fi.hash, config_hash := ch, output_path := output,
    mtime := fi.mtime, processed_at := now }

theorem update_ok (c : BuildCache) (fs : FS) (now : Nat)
    (input output : FPath) (ch : Nat) (fi : FileInfo)
    (h : fs.file input = some fi) :
    c.update fs now input output ch =
      .ok { c with entries := fun p =>
        if p = input then some (updatedEntry fi ch output now)
        else c.entries p } := by
  simp [BuildCache.update, updatedEntry, hash_file, fs_mtime, h]

theorem update_entries_ne (c c' : BuildCache) (fs : FS) (now : Nat)
    (input output : FPath) (ch : Nat)
    (h : c.update fs now input output ch = .ok c')
    (p : FPath) (hp : p ≠ input) : c'.entries p = c.entries p := by
  unfold BuildCache.update at h
  cases hh : hash_file fs input <;> rw [hh] at h
  · exact absurd h (by simp)
  cases hm : fs_mtime fs input <;> rw [hm] at h
  · exact absurd h (by simp)
  · cases h
    simp [hp]

theorem update_version_eq (c c' : BuildCache) (fs : FS) (now : Nat)
    (input output : FPath) (ch : Nat)
    (h : c.update fs now input output ch = .ok c') :
    c'.version = c.version := by
  unfold BuildCache.update at h
  cases hh : hash_file fs input <;> rw [hh] at h
  · exact absurd h (by simp)
  cases hm : fs_mtime fs input <;> rw [hm] at h
  · exact absurd h (by simp)
  · cases h
    rfl

theorem needs_rebuild_congr (c c' : BuildCache) (fs : FS) (f : FPath)
    (ch : Nat) (h : c.entries f = c'.entries f) :
    c.needs_rebuild fs f ch = c'.needs_rebuild fs f ch := by
  unfold BuildCache.needs_rebuild
  rw [h]

theorem needs_rebuild_false_of_entry (c : BuildCache) (fs : FS) (f : FPath)
    (ch : Nat) (fi : FileInfo) (out : FPath) (t : Nat)
    (he : c.entries f = some (updatedEntry fi ch out t))
    (hf : fs.file f = some fi) (hout : fs.existsb out = true) :
    c.needs_rebuild fs f ch = .ok false := by
  simp [BuildCache.needs_rebuild, updatedEntry, he, hash_file, fs_mtime,
    hf, hout]

theorem getD_true_eq_false (r : Except String Bool)
    (h : r.toOption.getD true = false) : r = .ok false := by
  rcases r with e | b
  · simp [Except.toOption] at h
  · rcases b with _ | _
    · rfl
    · simp [Except.toOption] at h

theorem buildStep_cache_version (fs : FS) (tr : Transform)
    (outputOf : FPath → FPath) (ch : Nat) (force : Bool) (now : Nat)
    (st : BuildState) (g : FPath) :
    (buildStep fs tr outputOf ch force now st g).cache.version =
      st.cache.version := by
  unfold buildStep
  cases hn : (force ||
      ((st.cache.needs_rebuild fs g ch).toOption.getD true)) with
  | false => simp [hn]
  | true =>
    rcases htr : tr g with e | v
    · simp [hn, htr]
    · rcases v with _ | ⟨a, b⟩
      · simp [hn, htr]
      · simp only [hn, htr]
        cases hu : st.cache.update fs now g (outputOf g) ch with
        | error e => simp [hu]
        | ok c' =>
          simpa [hu] using
            update_version_eq st.cache c' fs now g (outputOf g) ch hu

theorem foldl_cache_version (fs : FS) (tr : Transform)
    (outputOf : FPath → FPath) (ch : Nat) (force : Bool) (now : Nat)
    (files : List FPath) :
    ∀ st : BuildState,
      (files.foldl (buildStep fs tr outputOf ch force now)
        st).cache.version = st.cache.version := by
  induction files with
  | nil => exact fun _ => rfl
  | cons g rest ih =>
    intro st
    exact (ih _).trans
      (buildStep_cache_version fs tr outputOf ch force now st g)

theorem buildStep_preserves_noRebuild (fs : FS) (tr : Transform)
    (outputOf : FPath → FPath) (ch : Nat) (now : Nat)
    (st : BuildState) (g f : FPath)
    (hn : st.cache.needs_rebuild fs f ch = .ok false) :
    (buildStep fs tr outputOf ch false now st g).cache.needs_rebuild
      fs f ch = .ok false := by
  unfold buildStep
  cases hg : (false ||
      ((st.cache.needs_rebuild fs g ch).toOption.getD true)) with
  | false => simpa [hg] using hn
  | true =>
    rcases htr : tr g with e | v
    · simpa [hg, htr] using hn
    · rcases v with _ | ⟨a, b⟩
      · simpa [hg, htr] using hn
      · by_cases hgf : g = f
        · subst hgf
          rw [hn] at hg
          simp [Except.toOption] at hg
        · cases hu : st.cache.update fs now g (outputOf g) ch with
          | error e => simpa [hg, htr, hu] using hn
          | ok c' =>
            have hent : c'.entries f = st.cache.entries f :=
              update_entries_ne st.cache c' fs now g (outputOf g) ch hu f
                (fun hfg => hgf (hfg.symm))
            have hcong := needs_rebuild_congr c' st.cache fs f ch hent
            simp [hg, htr, hu, hcong, hn]

theorem foldl_preserves_noRebuild (fs : FS) (tr : Transform)
    (outputOf : FPath → FPath) (ch : Nat) (now : Nat)
    (files : List FPath) :
    ∀ (st : BuildState) (f : FPath),
      st.cache.needs_rebuild fs f ch = .ok false →
      (files.foldl (buildStep fs tr outputOf ch false now)
        st).cache.needs_rebuild fs f ch = .ok false := by
  induction files with
  | nil => exact fun _ _ h => h
  | cons g rest ih =>
    intro st f h
    exact ih _ f
      (buildStep_preserves_noRebuild fs tr outputOf ch now st g f h)

theorem foldl_establishes_noRebuild (fs : FS) (tr : Transform)
    (outputOf : FPath → FPath) (ch : Nat) (now : Nat)
    (files : List FPath) :
    ∀ (st : BuildState) (f : FPath), f ∈ files →
      (fs.file f).isSome = true → fs.existsb (outputOf f) = true →
      isOkSomeB (tr f) = true →
      (files.foldl (buildStep fs tr outputOf ch false now)
        st).cache.needs_rebuild fs f ch = .ok false := by
  induction files with
  | nil => intro st f hf; exact absurd hf (List.not_mem_nil f)
  | cons g rest ih =>
    intro st f hf hfi hout htr
    rcases List.mem_cons.mp hf with hfg | hfr
    · subst hfg
      apply foldl_preserves_noRebuild fs tr outputOf ch now rest
      rcases hfs : fs.file f with _ | fi
      · rw [hfs] at hfi
        exact absurd hfi (by simp)
      unfold buildStep
      cases hg : (false ||
          ((st.cache.needs_rebuild fs f ch).toOption.getD true)) with
      | false =>
        have : st.cache.needs_rebuild fs f ch = .ok false :=
          getD_true_eq_false _ (by simpa using hg)
        simpa [hg] using this
      | true =>
        rcases (isOkSomeB_iff (tr f)).mp htr with ⟨a, b, hab⟩
        simp only [hg, hab]
        rw [update_ok st.cache fs now f (outputOf f) ch fi hfs]
        simp only [Bool.not_eq_true]
        exact needs_rebuild_false_of_entry _ fs f ch fi (outputOf f) now
          (by simp) hfs hout
    · exact ih _ f hfr hfi hout htr

theorem foldl_all_skipped (fs : FS) (tr : Transform)
    (outputOf : FPath → FPath) (ch : Nat) (now : Nat)
    (files : List FPath) :
    ∀ st : BuildState,
      (∀ f ∈ files, st.cache.needs_rebuild fs f ch = .ok false) →
      ((files.foldl (buildStep fs tr outputOf ch false now)
          st).stats.processed = st.stats.processed ∧
       (files.foldl (buildStep fs tr outputOf ch false now)
          st).stats.skipped = st.stats.skipped + files.length ∧
       (files.foldl (buildStep fs tr outputOf ch false now)
          st).stats.errored = st.stats.errored ∧
       (files.foldl (buildStep fs tr outputOf ch false now)
          st).cache = st.cache) := by
  induction files with
  | nil => intro st _; exact ⟨rfl, rfl, rfl, rfl⟩
  | cons g rest ih =>
    intro st h
    have hg : st.cache.needs_rebuild fs g ch = .ok false :=
      h g (List.mem_cons_self g rest)
    have hstep : buildStep fs tr outputOf ch false now st g =
        { st with stats :=
            { st.stats with skipped := st.stats.skipped + 1 } } := by
      unfold buildStep
      rw [hg]
      simp [Except.toOption]
    have hfold : (g :: rest).foldl
        (buildStep fs tr outputOf ch false now) st =
        rest.foldl (buildStep fs tr outputOf ch false now)
          (buildStep fs tr outputOf ch false now st g) := rfl
    rcases ih { st with stats :=
        { st.stats with skipped := st.stats.skipped + 1 } }
      (fun f hf => h f (List.mem_cons_of_mem g hf)) with ⟨i1, i2, i3, i4⟩
    rw [hfold, hstep]
    refine ⟨i1, ?_, i3, i4⟩
    rw [i2]
    simp
    omega

/-- C6: the batch build is idempotent.  First conjunct: immediately after a
successful `update(input, output, config_hash)`, while the input file and the
output path are unchanged, `needs_rebuild(input, config_hash)` returns false.
Second conjunct: running the full session twice (load from an empty cache
directory, fold over the files, `cleanup`, `save`, re-load, fold again) with
the same inputs and config, no `force` flag, all transforms succeeding, and
all inputs and outputs still present, yields `processed = 0` on the second
run with every candidate file counted as skipped. -/
theorem batch_idempotence (fs : FS) (tr : Transform)
    (outputOf : FPath → FPath) (ch now1 now2 : Nat) (files : List FPath)
    (hfi : ∀ f ∈ files, (fs.file f).isSome = true)
    (hout : ∀ f ∈ files, fs.existsb (outputOf f) = true)
    (htr : ∀ f ∈ files, isOkSomeB (tr f) = true) :
    (∀ (c c' : BuildCache) (i o : FPath) (t : Nat),
      c.update fs t i o ch = .ok c' → fs.existsb o = true →
      c'.needs_rebuild fs i ch = .ok false) ∧
    ((runBatch fs tr outputOf ch false now2
        (loadOrDefault (sessionSidecar fs
          (runBatch fs tr outputOf ch false now1
            (loadOrDefault SidecarState.absent) files)))
        files).stats.processed = 0 ∧
     (runBatch fs tr outputOf ch false now2
        (loadOrDefault (sessionSidecar fs
          (runBatch fs tr outputOf ch false now1
            (loadOrDefault SidecarState.absent) files)))
        files).stats.skipped = files.length ∧
     (runBatch fs tr outputOf ch false now2
        (loadOrDefault (sessionSidecar fs
          (runBatch fs tr outputOf ch false now1
            (loadOrDefault SidecarState.absent) files)))
        files).stats.errored = 0) := by
  constructor
  · intro c c' i o t hu ho
    rcases hfs : fs.file i with _ | fi
    · rw [BuildCache.update, hash_file, hfs] at hu
      exact absurd hu (by simp)
    · rw [update_ok c fs t i o ch fi hfs] at hu
      cases hu
      exact needs_rebuild_false_of_entry _ fs i ch fi o t (by simp)
        hfs ho
  · have hc1 : loadOrDefault SidecarState.absent = BuildCache.new := rfl
    set st1 := runBatch fs tr outputOf ch false now1
      (loadOrDefault SidecarState.absent) files with hst1
    have hver1 : st1.cache.version = CACHE_VERSION := by
      rw [hst1, hc1]
      exact foldl_cache_version fs tr outputOf ch false now1 files _
    have hver2 : (st1.cache.cleanup fs).version = CACHE_VERSION := hver1
    have hload : loadOrDefault (sessionSidecar fs st1) =
        st1.cache.cleanup fs := by
      simp only [loadOrDefault, sessionSidecar, BuildCache.save,
        BuildCache.load]
      rw [if_neg (fun hne => hne hver2)]
      rfl
    have hnon : ∀ f ∈ files,
        (st1.cache.cleanup fs).needs_rebuild fs f ch = .ok false := by
      intro f hf
      have hex : fs.existsb f = true := hfi f hf
      have hent : (st1.cache.cleanup fs).entries f = st1.cache.entries f := by
        unfold BuildCache.cleanup
        simp [hex]
      have hn1 : st1.cache.needs_rebuild fs f ch = .ok false := by
        rw [hst1]
        exact foldl_establishes_noRebuild fs tr outputOf ch now1 files _ f
          hf (hfi f hf) (hout f hf) (htr f hf)
      rw [needs_rebuild_congr (st1.cache.cleanup fs) st1.cache fs f ch hent]
      exact hn1
    rw [hload]
    rcases foldl_all_skipped fs tr outputOf ch now2 files
      { stats := BuildStats.init, cache := st1.cache.cleanup fs } hnon with
      ⟨h1, h2, h3, _⟩
    refine ⟨h1, ?_, h3⟩
    rw [runBatch, h2]
    simp [BuildStats.init]

/-- Filesystem for the idempotence witness: one input `"a"` and its mirrored
output `"oa"` both exist. -/
def fsC6 : FS :=
  { file := fun p =>
      if p = "a" then some { hash := 5, mtime := 10 }
      else if p = "oa" then some { hash := 6, mtime := 11 }
      else none }

/-- Transform for the idempotence witness: always succeeds with byte counts
`(100, 50)`. -/
def trC6 : Transform := fun _ => .ok (some (100, 50))

/-- C6 witness: a two-session build over the single file `"a"` processes it
once and then skips it on the second run. -/
theorem batch_idempotence_witness :
    (runBatch fsC6 trC6 (fun p => "o" ++ p) 7 false 20
        (loadOrDefault (sessionSidecar fsC6
          (runBatch fsC6 trC6 (fun p => "o" ++ p) 7 false 10
            (loadOrDefault SidecarState.absent) ["a"])))
        ["a"]).stats.processed = 0 ∧
    (runBatch fsC6 trC6 (fun p => "o" ++ p) 7 false 20
        (loadOrDefault (sessionSidecar fsC6
          (runBatch fsC6 trC6 (fun p => "o" ++ p) 7 false 10
            (loadOrDefault SidecarState.absent) ["a"])))
        ["a"]).stats.skipped = 1 ∧
    (runBatch fsC6 trC6 (fun p => "o" ++ p) 7 false 20
        (loadOrDefault (sessionSidecar fsC6
          (runBatch fsC6 trC6 (fun p => "o" ++ p) 7 false 10
            (loadOrDefault SidecarState.absent) ["a"])))
        ["a"]).stats.errored = 0 :=
  (batch_idempotence fsC6 trC6 (fun p => "o" ++ p) 7 10 20 ["a"]
    (by decide) (by decide) (by decide)).2

end AssetForge
